import Mathlib

/-!
Shallow embedding of `src/edgar_query.py` (special-situations EDGAR scanner).

Python strings are modelled as Lean `String` (ASCII fragment: `str.lower` /
`str.upper` are modelled character-wise, which agrees with Python on the
ASCII texts and patterns the program uses).  A fallible accessor
(`f.text()`, `att.content()`, attachment enumeration) is modelled as
`Except String α` whose `error` case stands for a raised exception; an
uncaught exception propagates as `Except.error` out of the function that
Python would abort.  Logging is side-effect only and is not modelled.
-/

namespace EdgarQuery

/-- ASCII model of Python `str.lower()` (character-wise). -/
def pyLower (s : String) : String := ⟨s.data.map Char.toLower⟩

/-- ASCII model of Python `str.upper()` (character-wise). -/
def pyUpper (s : String) : String := ⟨s.data.map Char.toUpper⟩

/-- `re`'s word character class `\w` (ASCII: letters, digits, underscore). -/
def isWordChar (c : Char) : Bool :=
  (('a' ≤ c && c ≤ 'z') || ('A' ≤ c && c ≤ 'Z') || ('0' ≤ c && c ≤ '9') || c = '_')

/-- Case-insensitively match `kw` against the front of `text`; on success
return the remaining text after the match (models matching the literal
pattern characters under `re.IGNORECASE`). -/
def ciDropMatch : List Char → List Char → Option (List Char)
  | [], text => some text
  | _ :: _, [] => none
  | k :: ks, c :: cs => if k.toLower = c.toLower then ciDropMatch ks cs else none

/-- `\b` before the pattern: the previous text character (if any) must not be
a word character.  (Every keyword in `KEYWORDS` begins with a word
character, so this is exactly `re`'s word-boundary condition there.) -/
def boundaryBefore : Option Char → Bool
  | none => true
  | some c => !isWordChar c

/-- `\b` after the pattern: the next text character (if any) must not be a
word character.  (Every keyword in `KEYWORDS` ends with a word character.) -/
def boundaryAfter : List Char → Bool
  | [] => true
  | c :: _ => !isWordChar c

/-- Does `\b kw \b` (case-insensitive) match at exactly this position? -/
def matchHere (kw : List Char) (prev : Option Char) (text : List Char) : Bool :=
  boundaryBefore prev &&
    (match ciDropMatch kw text with
     | some rest => boundaryAfter rest
     | none => false)

/-- `re.search` for the pattern `\b kw \b` with `re.IGNORECASE`: try every
position of `text`, tracking the previous character for the left boundary. -/
def kwSearchAux (kw : List Char) (prev : Option Char) (text : List Char) : Bool :=
  match text with
  | [] => matchHere kw prev []
  | c :: cs => matchHere kw prev (c :: cs) || kwSearchAux kw (some c) cs

/-- `pat.search(text) is not None` for `pat = re.compile(r"\b"+kw+r"\b", re.IGNORECASE)`. -/
def kwSearch (kw : String) (text : String) : Bool :=
  kwSearchAux kw.data none text.data

/-- `KEYWORDS` (src/edgar_query.py lines 22-32). -/
def KEYWORDS : List String := [
  "merger", "acquisition", "acquires", "acquired", "to be acquired", "combination",
  "tender offer", "going private", "go-private", "take private",
  "spin-off", "spinoff", "split-off", "carve-out",
  "restructuring", "recapitalization", "rights offering",
  "asset sale", "divestiture", "sell division", "disposition",
  "chapter 11", "bankruptcy", "emerges from chapter",
  "activist", "13d", "13d/a", "strategic review",
  "special dividend", "buyback", "share repurchase", "scheme of arrangement",
  "13e-3", "sc to-t", "sc to-i"
]

/-- `has_keywords` (src/edgar_query.py lines 94-97): `None`/empty text is no
match; otherwise some compiled keyword pattern must be found in the text. -/
def has_keywords (text : Option String) : Bool :=
  match text with
  | none => false
  | some t => if t = "" then false else KEYWORDS.any (fun kw => kwSearch kw t)

/-- Python's substring containment `needle in hay` on char lists. -/
def isSubstr (needle : List Char) : List Char → Bool
  | [] => needle.isEmpty
  | c :: t => needle.isPrefixOf (c :: t) || isSubstr needle t

/-- `needle in t` for Lean `String`s. -/
def hasSub (needle t : String) : Bool := isSubstr needle.data t.data

/-- The ordered, first-match-wins rule chain of `classify_`
(src/edgar_query.py lines 44-72), applied to the already-lowercased text. -/
def classifyText (t : String) : String :=
  if hasSub "13e-3" t then "Going-Private (13E-3)"
  else if hasSub "sc to-t" t then "Tender Offer (TO-T)"
  else if hasSub "sc to-i" t then "Issuer Tender (TO-I)"
  else if hasSub "tender offer" t || hasSub "going private" t || hasSub "go-private" t
      || hasSub "take private" t then "Tender/Going-Private"
  else if hasSub "spin-off" t || hasSub "spinoff" t || hasSub "split-off" t
      || hasSub "carve-out" t then "Spin-off"
  else if hasSub "merger" t || hasSub "acquisition" t || hasSub "acquires" t
      || hasSub "to be acquired" t || hasSub "combination" t then "M&A"
  else if hasSub "restructuring" t || hasSub "recapitalization" t
      || hasSub "rights offering" t then "Restructuring/Recap"
  else if hasSub "asset sale" t || hasSub "divestiture" t || hasSub "sell division" t
      || hasSub "disposition" t then "Asset Sale"
  else if hasSub "chapter 11" t || hasSub "bankruptcy" t
      || hasSub "emerges from chapter" t then "Bankruptcy"
  else if hasSub "13d" t then "Activist/13D"
  else if hasSub "strategic review" t then "Strategic Review"
  else if hasSub "special dividend" t then "Special Dividend"
  else if hasSub "buyback" t || hasSub "share repurchase" t then "Buyback"
  else "Other"

/-- `classify_` (src/edgar_query.py lines 34-72): empty/absent text is
`"Other"`; otherwise lower-case the text and run the rule chain. -/
def classify_ (text : Option String) : String :=
  match text with
  | none => "Other"
  | some s => if s = "" then "Other" else classifyText (pyLower s)

/-! ### Lexicographic string comparison (Python's code-point order) -/

/-- Strict lexicographic order on char lists by code point, as Python's
string `<` behaves on the ASCII data this program handles. -/
def listLTb : List Char → List Char → Bool
  | [], [] => false
  | [], _ :: _ => true
  | _ :: _, [] => false
  | a :: as, b :: bs => if a = b then listLTb as bs else decide (a < b)

/-- Strict lexicographic order on strings. -/
def strLTb (s t : String) : Bool := listLTb s.data t.data

/-- Non-strict lexicographic order on strings. -/
def strLEb (s t : String) : Bool := strLTb s t || s == t

/-- The order `sorted` uses on the provenance tags, as a proposition. -/
def tagLE (s t : String) : Prop := strLEb s t = true

instance : DecidableRel tagLE := fun s t => by unfold tagLE; infer_instance

/-- Python `sorted(set(l))`: the deduplicated, lexicographically sorted tags. -/
def sortedDedupTags (l : List String) : List String :=
  List.insertionSort tagLE l.dedup

/-- `"; ".join(l)`. -/
def joinSemi : List String → String
  | [] => ""
  | [s] => s
  | s :: rest => s ++ "; " ++ joinSemi rest

/-- Python `s.startswith(pre)`. -/
def strStartsWith (s pre : String) : Bool := pre.data.isPrefixOf s.data

/-- Python `s.endswith(suf)`. -/
def strEndsWith (s suf : String) : Bool := suf.data.isSuffixOf s.data

/-! ### Data model: filings, attachments, rows, DataFrames -/

/-- An attachment of a filing.  `document`/`type` are `getattr`-probed with
default (absent is `none`, normalized to `""` by the scanner); `content`
models `att.content()`, which may raise. -/
structure Attachment where
  document : Option String
  type : Option String
  content : Except String String

/-- A filing handle from the external provider (`get_filings`). `text`
models the fallible `f.text()` accessor; `attachments` models fallible
attachment enumeration; `url` is `getattr(f, "url", None)`. -/
structure Filing where
  company : String
  cik : Nat
  filing_date : String
  accession_no : String
  text : Except String String
  attachments : Except String (List Attachment)
  url : Option String

/-- One hit row of the result table (the dict built at lines 133-142). -/
structure Row where
  company : String
  cik : Nat
  filing_date : String
  accession_no : String
  form_type : String
  classification : String
  where_found : String
  link : Option String

/-- A pandas DataFrame, restricted to what the program produces: a column
schema, an integer index, and the data rows. -/
structure DataFrame where
  columns : List String
  index : List Nat
  rows : List Row

/-- The fixed 8-column schema of the special-situations table. -/
def schemaColumns : List String :=
  ["company", "cik", "filing_date", "accession_no",
   "form_type", "classification", "where_found", "link"]

/-- `sort_values(["company", "filing_date"])`'s key order on rows. -/
def rowLE (r x : Row) : Prop :=
  strLTb r.company x.company = true ∨
    (r.company = x.company ∧ strLEb r.filing_date x.filing_date = true)

instance : DecidableRel rowLE := fun r x => by unfold rowLE; infer_instance

/-! ### The per-filing surface scan (loop body, lines 110-131) -/

/-- Lines 112-116: probe the primary text inside try/except — a raising
`f.text()` is caught (warning log) and contributes no tag. -/
def primaryTags (f : Filing) : List String :=
  match f.text with
  | Except.ok t => if has_keywords (some t) then ["primary"] else []
  | Except.error _ => []

/-- Lines 120-128, one attachment: eligibility by document extension or
`EX`/`EX-` type, then the fallible content fetch (a raising `att.content()`
is caught and skipped); a match yields the tag `attachment:{doc or typ}`. -/
def attachmentTag (att : Attachment) : Option String :=
  if strEndsWith (pyLower (att.document.getD "")) ".htm"
      || strEndsWith (pyLower (att.document.getD "")) ".html"
      || strEndsWith (pyLower (att.document.getD "")) ".txt"
      || strStartsWith (pyUpper (att.type.getD "")) "EX"
      || strStartsWith (pyUpper (att.type.getD "")) "EX-" then
    match att.content with
    | Except.ok c =>
      if has_keywords (some c) then
        some ("attachment:" ++
          (if att.document.getD "" = "" then att.type.getD "" else att.document.getD ""))
      else none
    | Except.error _ => none
  else none

/-- Lines 118-130: the attachment loop, guarded by `include_exhibits`; a
raising attachment enumeration is caught (warning log) and contributes
nothing. -/
def attachmentTags (include_exhibits : Bool) (f : Filing) : List String :=
  if include_exhibits then
    match f.attachments with
    | Except.error _ => []
    | Except.ok atts => atts.filterMap attachmentTag
  else []

/-- Lines 110-131: scan one filing's surfaces with per-surface fault
isolation, accumulating the `where` list (primary first, then attachments
in order). -/
def scanFiling (include_exhibits : Bool) (f : Filing) : List String :=
  primaryTags f ++ attachmentTags include_exhibits f

/-- Row construction for a filing with a non-empty `where` list (lines
132-142).  `classify_(f.text())` re-invokes the primary-text accessor with
no surrounding try/except, so its failure propagates as `Except.error`. -/
def processFiling (include_exhibits : Bool) (form : String) (f : Filing) :
    Except String (Option Row) :=
  let w := scanFiling include_exhibits f
  if w.isEmpty then Except.ok none
  else
    match f.text with
    | Except.error e => Except.error e
    | Except.ok t =>
      Except.ok (some {
        company := f.company
        cik := f.cik
        filing_date := f.filing_date
        accession_no := f.accession_no
        form_type := form
        classification := classify_ (some t)
        where_found := joinSemi (sortedDedupTags w)
        link := f.url })

/-- Process a list of filings in order, appending any produced rows; an
uncaught exception from `processFiling` aborts the whole traversal. -/
def collectRows (include_exhibits : Bool) (form : String) :
    List Filing → Except String (List Row)
  | [] => Except.ok []
  | f :: fs =>
    match processFiling include_exhibits form f with
    | Except.error e => Except.error e
    | Except.ok none => collectRows include_exhibits form fs
    | Except.ok (some r) =>
      match collectRows include_exhibits form fs with
      | Except.error e => Except.error e
      | Except.ok rest => Except.ok (r :: rest)

/-- `islice(gen, max_filings)` when `max_filings` is set (lines 102-103). -/
def limitFilings (max_filings : Option Nat) (l : List Filing) : List Filing :=
  match max_filings with
  | none => l
  | some n => l.take n

/-- The outer loop over form types (lines 100-145): list the provider's
filings for each form, truncate, and collect hit rows across all forms. -/
def collectForms (provider : String → String → List Filing) (date_str : String)
    (include_exhibits : Bool) (max_filings : Option Nat) :
    List String → Except String (List Row)
  | [] => Except.ok []
  | form :: rest =>
    match collectRows include_exhibits form
        (limitFilings max_filings (provider form date_str)) with
    | Except.error e => Except.error e
    | Except.ok rows1 =>
      match collectForms provider date_str include_exhibits max_filings rest with
      | Except.error e => Except.error e
      | Except.ok rows2 => Except.ok (rows1 ++ rows2)

/-- `find_special_situations` (lines 75-157).  `provider` models
`get_filings(form=form, filing_date=date_str)`.  Zero hit rows yields the
empty DataFrame with the fixed schema; otherwise the rows are sorted by
(company, filing_date) ascending and the index renumbered from zero
(`sort_values(...).reset_index(drop=True)`). -/
def find_special_situations (provider : String → String → List Filing)
    (date_str : String) (forms : List String) (include_exhibits : Bool)
    (max_filings : Option Nat) : Except String DataFrame :=
  match collectForms provider date_str include_exhibits max_filings forms with
  | Except.error e => Except.error e
  | Except.ok rows =>
    if rows.isEmpty then
      Except.ok { columns := schemaColumns, index := [], rows := [] }
    else
      Except.ok { columns := schemaColumns,
                  index := List.range (List.insertionSort rowLE rows).length,
                  rows := List.insertionSort rowLE rows }

/-- `find_single_form_situations` (lines 159-183): delegates to
`find_special_situations` with a one-element form list. -/
def find_single_form_situations (provider : String → String → List Filing)
    (date_str : String) (form_type : String) (include_exhibits : Bool)
    (max_filings : Option Nat) : Except String DataFrame :=
  find_special_situations provider date_str [form_type] include_exhibits max_filings

/-! ### Concrete fixtures used to evaluate the pipeline at specific inputs -/

/-- A filing whose primary text matches a keyword. -/
def wFiling : Filing :=
  { company := "Acme Corp", cik := 1, filing_date := "2025-08-08",
    accession_no := "0001", text := Except.ok "merger agreement",
    attachments := Except.ok [], url := some "http://x" }

/-- A provider that returns exactly `wFiling` for every form and date. -/
def wProvider : String → String → List Filing := fun _ _ => [wFiling]

/-- The hit row the scan builds for `wFiling`. -/
def wRow : Row :=
  { company := "Acme Corp", cik := 1, filing_date := "2025-08-08",
    accession_no := "0001", form_type := "8-K", classification := "M&A",
    where_found := "primary", link := some "http://x" }

/-- The result table of scanning `wProvider` for one form. -/
def wDF : DataFrame := { columns := schemaColumns, index := [0], rows := [wRow] }

/-- A filing with no matching surface at all. -/
def wEmptyFiling : Filing :=
  { company := "Quiet Co", cik := 3, filing_date := "2025-08-15",
    accession_no := "0003", text := Except.ok "routine results announcement",
    attachments := Except.ok [], url := none }

/-- The schema-carrying empty result table. -/
def emptyDF : DataFrame := { columns := schemaColumns, index := [], rows := [] }

/-- An eligible attachment whose content matches a keyword. -/
def badAtt : Attachment :=
  { document := some "ex99.htm", type := some "EX-99",
    content := Except.ok "merger agreement" }

/-- A filing whose primary-text fetch raises but whose attachment matches. -/
def badFiling : Filing :=
  { company := "Beta Inc", cik := 2, filing_date := "2025-08-15",
    accession_no := "0002", text := Except.error "primary text fetch failed",
    attachments := Except.ok [badAtt], url := none }

/-! ### Order lemmas for the lexicographic comparisons -/

lemma listLTb_trichotomy (a b : List Char) :
    listLTb a b = true ∨ a = b ∨ listLTb b a = true := by
  induction a generalizing b with
  | nil =>
    cases b with
    | nil => exact Or.inr (Or.inl rfl)
    | cons y ys => exact Or.inl rfl
  | cons x xs ih =>
    cases b with
    | nil => exact Or.inr (Or.inr rfl)
    | cons y ys =>
      by_cases hxy : x = y
      · subst hxy
        rcases ih ys with h | h | h
        · exact Or.inl (by simp [listLTb, h])
        · exact Or.inr (Or.inl (by rw [h]))
        · exact Or.inr (Or.inr (by simp [listLTb, h]))
      · rcases lt_trichotomy x y with h | h | h
        · exact Or.inl (by simp [listLTb, hxy, h])
        · exact absurd h hxy
        · exact Or.inr (Or.inr (by simp [listLTb, Ne.symm hxy, h]))

lemma listLTb_trans (a b c : List Char) (hab : listLTb a b = true)
    (hbc : listLTb b c = true) : listLTb a c = true := by
  induction a generalizing b c with
  | nil =>
    cases b with
    | nil => simp [listLTb] at hab
    | cons y ys =>
      cases c with
      | nil => simp [listLTb] at hbc
      | cons z zs => rfl
  | cons x xs ih =>
    cases b with
    | nil => simp [listLTb] at hab
    | cons y ys =>
      cases c with
      | nil => simp [listLTb] at hbc
      | cons z zs =>
        by_cases hxy : x = y
        · subst hxy
          simp only [listLTb, if_pos rfl] at hab
          by_cases hxz : x = z
          · subst hxz
            simp only [listLTb, if_pos rfl] at hbc ⊢
            exact ih ys zs hab hbc
          · simp only [listLTb, if_neg hxz] at hbc ⊢
            exact hbc
        · simp only [listLTb, if_neg hxy, decide_eq_true_eq] at hab
          by_cases hyz : y = z
          · subst hyz
            simp [listLTb, hxy, hab]
          · simp only [listLTb, if_neg hyz, decide_eq_true_eq] at hbc
            have hxz : x < z := lt_trans hab hbc
            simp [listLTb, ne_of_lt hxz, hxz]

lemma strLEb_iff (s t : String) :
    strLEb s t = true ↔ strLTb s t = true ∨ s = t := by
  simp [strLEb, Bool.or_eq_true, beq_iff_eq]

lemma string_eq_of_data (s t : String) (h : s.data = t.data) : s = t :=
  String.toList_inj.mp h

instance : IsTotal Row rowLE := by
  constructor
  intro a b
  rcases listLTb_trichotomy a.company.data b.company.data with h | h | h
  · exact Or.inl (Or.inl h)
  · have hc : a.company = b.company := string_eq_of_data _ _ h
    rcases listLTb_trichotomy a.filing_date.data b.filing_date.data with h2 | h2 | h2
    · exact Or.inl (Or.inr ⟨hc, (strLEb_iff _ _).mpr (Or.inl h2)⟩)
    · have hd : a.filing_date = b.filing_date := string_eq_of_data _ _ h2
      exact Or.inl (Or.inr ⟨hc, (strLEb_iff _ _).mpr (Or.inr hd)⟩)
    · exact Or.inr (Or.inr ⟨hc.symm, (strLEb_iff _ _).mpr (Or.inl h2)⟩)
  · exact Or.inr (Or.inl h)

instance : IsTrans Row rowLE := by
  constructor
  intro a b c hab hbc
  rcases hab with h1 | ⟨e1, l1⟩
  · rcases hbc with h2 | ⟨e2, l2⟩
    · exact Or.inl (listLTb_trans _ _ _ h1 h2)
    · exact Or.inl (e2 ▸ h1)
  · rcases hbc with h2 | ⟨e2, l2⟩
    · exact Or.inl (by rw [e1]; exact h2)
    · refine Or.inr ⟨e1.trans e2, ?_⟩
      rcases (strLEb_iff _ _).mp l1 with hlt1 | heq1
      · rcases (strLEb_iff _ _).mp l2 with hlt2 | heq2
        · exact (strLEb_iff _ _).mpr (Or.inl (listLTb_trans _ _ _ hlt1 hlt2))
        · exact (strLEb_iff _ _).mpr (Or.inl (heq2 ▸ hlt1))
      · rw [heq1]; exact l2

/-! ### Shape and non-emptiness of provenance tags -/

lemma attach_ne_empty (s : String) : "attachment:" ++ s ≠ "" := by
  intro h
  have h4 : ("attachment:" ++ s).data.head? = some 'a' := rfl
  rw [h] at h4
  exact absurd h4 (by decide)

lemma attach_ne_press (s : String) : "attachment:" ++ s ≠ "press_release" := by
  intro h
  have h4 : ("attachment:" ++ s).data.head? = some 'a' := rfl
  rw [h] at h4
  exact absurd h4 (by decide)

lemma joinSemi_cons_ne (x : String) (xs : List String) (hx : x ≠ "") :
    joinSemi (x :: xs) ≠ "" := by
  cases xs with
  | nil => simpa [joinSemi] using hx
  | cons y ys =>
    intro h
    have hd : (joinSemi (x :: y :: ys)).data
        = (x.data ++ "; ".data) ++ (joinSemi (y :: ys)).data := rfl
    rw [h] at hd
    have h2 := (List.append_eq_nil.mp hd.symm).1
    have h3 := (List.append_eq_nil.mp h2).2
    exact absurd h3 (by decide)

lemma mem_sortedDedupTags {t : String} {l : List String} :
    t ∈ sortedDedupTags l ↔ t ∈ l := by
  unfold sortedDedupTags
  rw [List.mem_insertionSort, List.mem_dedup]

lemma sortedDedupTags_ne_nil {l : List String} (h : l ≠ []) :
    sortedDedupTags l ≠ [] := by
  unfold sortedDedupTags
  intro h2
  have h3 := congrArg List.length h2
  rw [List.length_insertionSort] at h3
  exact h ((List.dedup_eq_nil l).mp (List.length_eq_zero.mp h3))

lemma attachmentTag_shape {att : Attachment} {tag : String}
    (h : attachmentTag att = some tag) : ∃ s, tag = "attachment:" ++ s := by
  unfold attachmentTag at h
  split at h
  · split at h
    · split at h
      · exact ⟨_, (Option.some.injEq _ _ ▸ h).symm⟩
      · exact absurd h (by simp)
    · exact absurd h (by simp)
  · exact absurd h (by simp)

lemma scanFiling_tag_shape (inc : Bool) (f : Filing) (tag : String)
    (h : tag ∈ scanFiling inc f) :
    tag = "primary" ∨ ∃ s, tag = "attachment:" ++ s := by
  rcases List.mem_append.mp h with h1 | h2
  · left
    unfold primaryTags at h1
    cases ht : f.text with
    | error e => rw [ht] at h1; dsimp only at h1; simp at h1
    | ok t =>
      rw [ht] at h1
      dsimp only at h1
      by_cases hk : has_keywords (some t) = true
      · rw [if_pos hk] at h1
        simpa using h1
      · rw [if_neg hk] at h1
        simp at h1
  · right
    unfold attachmentTags at h2
    by_cases hinc : inc = true
    · rw [if_pos hinc] at h2
      cases hatt : f.attachments with
      | error e => rw [hatt] at h2; dsimp only at h2; simp at h2
      | ok atts =>
        rw [hatt] at h2
        dsimp only at h2
        obtain ⟨att, _, htag⟩ := List.mem_filterMap.mp h2
        exact attachmentTag_shape htag
    · rw [if_neg hinc] at h2
      simp at h2

lemma scanFiling_tag_ne_empty (inc : Bool) (f : Filing) (tag : String)
    (h : tag ∈ scanFiling inc f) : tag ≠ "" := by
  rcases scanFiling_tag_shape inc f tag h with h1 | ⟨s, h1⟩
  · rw [h1]; decide
  · rw [h1]; exact attach_ne_empty s

lemma joinSemi_scanFiling_ne (inc : Bool) (f : Filing)
    (h : scanFiling inc f ≠ []) :
    joinSemi (sortedDedupTags (scanFiling inc f)) ≠ "" := by
  cases hsd : sortedDedupTags (scanFiling inc f) with
  | nil => exact absurd hsd (sortedDedupTags_ne_nil h)
  | cons x xs =>
    have hx : x ∈ scanFiling inc f :=
      mem_sortedDedupTags.mp (hsd ▸ List.mem_cons_self x xs)
    exact joinSemi_cons_ne x xs (scanFiling_tag_ne_empty inc f x hx)

/-! ### Membership lemmas through the pipeline -/

lemma processFiling_ok_some {inc : Bool} {form : String} {f : Filing} {r : Row}
    (h : processFiling inc form f = Except.ok (some r)) :
    scanFiling inc f ≠ [] ∧
    r.where_found = joinSemi (sortedDedupTags (scanFiling inc f)) := by
  unfold processFiling at h
  by_cases hw : (scanFiling inc f).isEmpty = true
  · rw [if_pos hw] at h
    simp at h
  · rw [if_neg hw] at h
    refine ⟨fun hnil => hw (by rw [hnil]; rfl), ?_⟩
    cases ht : f.text with
    | error e => rw [ht] at h; dsimp only at h; simp at h
    | ok t =>
      rw [ht] at h
      dsimp only at h
      simp only [Except.ok.injEq, Option.some.injEq] at h
      rw [← h]

lemma processFiling_none {inc : Bool} {form : String} {f : Filing}
    (h : scanFiling inc f = []) :
    processFiling inc form f = Except.ok none := by
  unfold processFiling
  rw [if_pos (by rw [h]; rfl)]

lemma collectRows_ok_mem {inc : Bool} {form : String} :
    ∀ {fs : List Filing} {rows : List Row} {r : Row},
    collectRows inc form fs = Except.ok rows → r ∈ rows →
    ∃ f ∈ fs, processFiling inc form f = Except.ok (some r) := by
  intro fs
  induction fs with
  | nil =>
    intro rows r h hr
    simp only [collectRows, Except.ok.injEq] at h
    rw [← h] at hr
    exact absurd hr (List.not_mem_nil r)
  | cons f fs ih =>
    intro rows r h hr
    unfold collectRows at h
    cases hp : processFiling inc form f with
    | error e => rw [hp] at h; dsimp only at h; simp at h
    | ok r? =>
      rw [hp] at h
      cases r? with
      | none =>
        dsimp only at h
        obtain ⟨g, hg, hpg⟩ := ih h hr
        exact ⟨g, List.mem_cons_of_mem f hg, hpg⟩
      | some r0 =>
        dsimp only at h
        cases hc : collectRows inc form fs with
        | error e => rw [hc] at h; dsimp only at h; simp at h
        | ok rest =>
          rw [hc] at h
          dsimp only at h
          simp only [Except.ok.injEq] at h
          rw [← h] at hr
          rcases List.mem_cons.mp hr with h1 | h1
          · exact ⟨f, List.mem_cons_self f fs, by rw [hp, ← h1]⟩
          · obtain ⟨g, hg, hpg⟩ := ih hc h1
            exact ⟨g, List.mem_cons_of_mem f hg, hpg⟩

lemma collectForms_ok_mem {provider : String → String → List Filing}
    {date_str : String} {inc : Bool} {maxf : Option Nat} :
    ∀ {forms : List String} {rows : List Row} {r : Row},
    collectForms provider date_str inc maxf forms = Except.ok rows → r ∈ rows →
    ∃ form ∈ forms, ∃ f ∈ limitFilings maxf (provider form date_str),
      processFiling inc form f = Except.ok (some r) := by
  intro forms
  induction forms with
  | nil =>
    intro rows r h hr
    simp only [collectForms, Except.ok.injEq] at h
    rw [← h] at hr
    exact absurd hr (List.not_mem_nil r)
  | cons form rest ih =>
    intro rows r h hr
    unfold collectForms at h
    cases hc : collectRows inc form (limitFilings maxf (provider form date_str)) with
    | error e => rw [hc] at h; dsimp only at h; simp at h
    | ok rows1 =>
      rw [hc] at h
      dsimp only at h
      cases hc2 : collectForms provider date_str inc maxf rest with
      | error e => rw [hc2] at h; dsimp only at h; simp at h
      | ok rows2 =>
        rw [hc2] at h
        dsimp only at h
        simp only [Except.ok.injEq] at h
        rw [← h] at hr
        rcases List.mem_append.mp hr with h1 | h1
        · obtain ⟨f, hf, hpf⟩ := collectRows_ok_mem hc h1
          exact ⟨form, List.mem_cons_self form rest, f, hf, hpf⟩
        · obtain ⟨form2, hform2, f, hf, hpf⟩ := ih hc2 h1
          exact ⟨form2, List.mem_cons_of_mem form hform2, f, hf, hpf⟩

lemma find_ok_mem {provider : String → String → List Filing} {date_str : String}
    {forms : List String} {inc : Bool} {maxf : Option Nat} {df : DataFrame} {r : Row}
    (h : find_special_situations provider date_str forms inc maxf = Except.ok df)
    (hr : r ∈ df.rows) :
    ∃ form ∈ forms, ∃ f ∈ limitFilings maxf (provider form date_str),
      processFiling inc form f = Except.ok (some r) := by
  unfold find_special_situations at h
  cases hc : collectForms provider date_str inc maxf forms with
  | error e => rw [hc] at h; dsimp only at h; simp at h
  | ok rows =>
    rw [hc] at h
    dsimp only at h
    by_cases he : rows.isEmpty = true
    · rw [if_pos he] at h
      simp only [Except.ok.injEq] at h
      rw [← h] at hr
      exact absurd hr (List.not_mem_nil r)
    · rw [if_neg he] at h
      simp only [Except.ok.injEq] at h
      rw [← h] at hr
      exact collectForms_ok_mem hc ((List.mem_insertionSort rowLE).mp hr)

lemma collectForms_take (provider : String → String → List Filing)
    (date_str : String) (inc : Bool) (n : Nat) :
    ∀ forms : List String,
    collectForms provider date_str inc (some n) forms =
      collectForms (fun form d => (provider form d).take n) date_str inc none forms := by
  intro forms
  induction forms with
  | nil => rfl
  | cons form rest ih =>
    unfold collectForms
    rw [ih]
    rfl

/-! ### Claim theorems -/

/-- C1: the spec promises that a failure fetching a filing's primary text is
recovered locally — attachment tags are still collected and the scan never
raises.  The code does collect the attachment tags, but then evaluates
`classify_(f.text())` outside any try/except when it builds the row, so the
very same primary-text failure aborts the whole scan: on a filing whose
primary-text fetch raises and whose matching attachment succeeds, the scan
returns the raised error instead of a result table. -/
theorem scan_aborts_on_partial_filing :
    scanFiling true badFiling = ["attachment:ex99.htm"] ∧
    find_special_situations (fun _ _ => [badFiling]) "2025-08-15" ["8-K"] true none =
      Except.error "primary text fetch failed" :=
  ⟨rfl, rfl⟩

/-- C2 (counterexample): the claim says the extended matcher returns true on
"mergers" via an `s?` pluralization; the compiled pattern is `\bmerger\b`
with no `s?`, so "mergers" does not match. -/
theorem extended_matcher_mergers_not_matched :
    has_keywords (some "mergers") = false := by decide

/-- C2 (amended): the extended keyword matcher uses whole-word,
case-insensitive boundaries with no pluralization: "the merger closed"
matches, "mergers" does not (the trailing `s` defeats the `\b` after
`merger`), and "emergent" does not. -/
theorem extended_matcher_whole_word_bounds :
    has_keywords (some "the merger closed") = true ∧
    has_keywords (some "mergers") = false ∧
    has_keywords (some "emergent") = false :=
  ⟨by decide, by decide, by decide⟩

/-- C3: the classifier is first-match-wins in a fixed order: any text whose
lowercase form contains both "13e-3" and "merger" is classified
"Going-Private (13E-3)" (rule 1 beats rule 6), and "Company to be acquired
via tender offer" is classified "Tender/Going-Private", not "M&A". -/
theorem classify_first_match_wins (t : String)
    (h1 : hasSub "13e-3" (pyLower t) = true)
    (_h2 : hasSub "merger" (pyLower t) = true) :
    classify_ (some t) = "Going-Private (13E-3)" ∧
    classify_ (some "Company to be acquired via tender offer") =
      "Tender/Going-Private" := by
  refine ⟨?_, by decide⟩
  have ht : ¬ t = "" := by
    intro he
    rw [he] at h1
    exact absurd h1 (by decide)
  unfold classify_
  dsimp only
  rw [if_neg ht]
  unfold classifyText
  rw [if_pos h1]

/-- C3 witness: the theorem applied at the concrete text "13e-3 merger". -/
theorem classify_first_match_wins_witness :
    classify_ (some "13e-3 merger") = "Going-Private (13E-3)" ∧
    classify_ (some "Company to be acquired via tender offer") =
      "Tender/Going-Private" :=
  classify_first_match_wins "13e-3 merger" (by decide) (by decide)

/-- C4: for empty or absent input text, the keyword matcher returns false and
the classifier returns "Other". -/
theorem empty_absent_inputs_default :
    has_keywords none = false ∧ has_keywords (some "") = false ∧
    classify_ none = "Other" ∧ classify_ (some "") = "Other" :=
  ⟨rfl, rfl, rfl, rfl⟩

/-- C5: every row of an (ok) result table has a non-empty where_found equal
to the "; "-join of the deduplicated, lexicographically sorted provenance
tags of some scanned filing with at least one matching surface; and a filing
whose surface scan produced no tags yields no row. -/
theorem wherefound_nonempty_sorted_dedup :
    (∀ (provider : String → String → List Filing) (date_str : String)
       (forms : List String) (inc : Bool) (maxf : Option Nat)
       (df : DataFrame) (r : Row),
       find_special_situations provider date_str forms inc maxf = Except.ok df →
       r ∈ df.rows →
       r.where_found ≠ "" ∧
       ∃ form ∈ forms, ∃ f ∈ limitFilings maxf (provider form date_str),
         scanFiling inc f ≠ [] ∧
         r.where_found = joinSemi (sortedDedupTags (scanFiling inc f))) ∧
    (∀ (inc : Bool) (form : String) (f : Filing),
       scanFiling inc f = [] → processFiling inc form f = Except.ok none) := by
  constructor
  · intro provider date_str forms inc maxf df r h hr
    obtain ⟨form, hform, f, hf, hpf⟩ := find_ok_mem h hr
    obtain ⟨hne, heq⟩ := processFiling_ok_some hpf
    refine ⟨?_, form, hform, f, hf, hne, heq⟩
    rw [heq]
    exact joinSemi_scanFiling_ne inc f hne
  · intro inc form f h
    exact processFiling_none h

/-- C5 witness: the theorem applied to a one-filing provider whose filing
matches in its primary text, and to a filing with no matching surface. -/
theorem wherefound_nonempty_sorted_dedup_witness :
    wRow.where_found ≠ "" ∧
    processFiling true "8-K" wEmptyFiling = Except.ok none :=
  ⟨(wherefound_nonempty_sorted_dedup.1 wProvider "2025-08-15" ["8-K"] true none
      wDF wRow (by rfl) (List.mem_cons_self wRow [])).1,
   wherefound_nonempty_sorted_dedup.2 true "8-K" wEmptyFiling (by rfl)⟩

/-- C6: setting max_filings to n makes the scan behave exactly as if the
provider had returned only the first n filings, in provider order, for every
form — filings past that deterministic prefix can never influence the
result, matching or not. -/
theorem max_filings_deterministic_prefix
    (provider : String → String → List Filing) (date_str : String)
    (forms : List String) (inc : Bool) (n : Nat) :
    find_special_situations provider date_str forms inc (some n) =
      find_special_situations (fun form d => (provider form d).take n)
        date_str forms inc none := by
  unfold find_special_situations
  rw [collectForms_take]

/-- C7: a scan whose result table has zero rows still carries exactly the 8
declared columns (and an empty index), never a schema-less structure. -/
theorem empty_scan_keeps_schema
    (provider : String → String → List Filing) (date_str : String)
    (forms : List String) (inc : Bool) (maxf : Option Nat) (df : DataFrame)
    (h : find_special_situations provider date_str forms inc maxf = Except.ok df)
    (hrows : df.rows = []) :
    df.columns = schemaColumns ∧ df.index = [] := by
  unfold find_special_situations at h
  cases hc : collectForms provider date_str inc maxf forms with
  | error e => rw [hc] at h; dsimp only at h; simp at h
  | ok rows =>
    rw [hc] at h
    dsimp only at h
    by_cases he : rows.isEmpty = true
    · rw [if_pos he] at h
      simp only [Except.ok.injEq] at h
      rw [← h]
      exact ⟨rfl, rfl⟩
    · rw [if_neg he] at h
      simp only [Except.ok.injEq] at h
      exfalso
      rw [← h] at hrows
      dsimp only at hrows
      have h3 := congrArg List.length hrows
      rw [List.length_insertionSort] at h3
      exact he (by rw [List.length_eq_zero.mp h3]; rfl)

/-- C7 witness: the theorem applied to a provider with no filings at all. -/
theorem empty_scan_keeps_schema_witness :
    emptyDF.columns = schemaColumns ∧ emptyDF.index = [] :=
  empty_scan_keeps_schema (fun _ _ => []) "2025-08-15" ["8-K"] true none emptyDF
    (by rfl) (by rfl)

/-- C8: a result table with at least one row is sorted by
(company, filing_date) ascending — in particular two rows of the same
company are ordered by filing date — and its index is renumbered 0..n-1. -/
theorem result_sorted_and_renumbered
    (provider : String → String → List Filing) (date_str : String)
    (forms : List String) (inc : Bool) (maxf : Option Nat) (df : DataFrame)
    (h : find_special_situations provider date_str forms inc maxf = Except.ok df)
    (hne : df.rows ≠ []) :
    List.Sorted rowLE df.rows ∧ df.index = List.range df.rows.length := by
  unfold find_special_situations at h
  cases hc : collectForms provider date_str inc maxf forms with
  | error e => rw [hc] at h; dsimp only at h; simp at h
  | ok rows =>
    rw [hc] at h
    dsimp only at h
    by_cases he : rows.isEmpty = true
    · rw [if_pos he] at h
      simp only [Except.ok.injEq] at h
      rw [← h] at hne
      exact absurd rfl hne
    · rw [if_neg he] at h
      simp only [Except.ok.injEq] at h
      rw [← h]
      exact ⟨List.sorted_insertionSort rowLE rows, rfl⟩

/-- C8 witness: the theorem applied to a one-filing provider with a match. -/
theorem result_sorted_and_renumbered_witness :
    List.Sorted rowLE wDF.rows ∧ wDF.index = List.range wDF.rows.length :=
  result_sorted_and_renumbered wProvider "2025-08-15" ["8-K"] true none wDF
    (by rfl) (List.cons_ne_nil wRow [])

/-- C9: the single-form convenience function returns exactly what the
multi-form scan returns on the one-element form list, for every provider,
date, form type, include_exhibits flag and max_filings value. -/
theorem single_form_delegates_to_multi
    (provider : String → String → List Filing) (date_str form_type : String)
    (inc : Bool) (maxf : Option Nat) :
    find_single_form_situations provider date_str form_type inc maxf =
      find_special_situations provider date_str [form_type] inc maxf := rfl

/-- C10: every provenance tag the surface scan can produce is "primary" or
starts with "attachment:"; no "press_release" tag is ever produced, since no
press-release surface is probed. -/
theorem provenance_tags_primary_or_attachment
    (inc : Bool) (f : Filing) (tag : String) (h : tag ∈ scanFiling inc f) :
    (tag = "primary" ∨ ∃ s, tag = "attachment:" ++ s) ∧
    tag ≠ "press_release" := by
  refine ⟨scanFiling_tag_shape inc f tag h, ?_⟩
  rcases scanFiling_tag_shape inc f tag h with h1 | ⟨s, h1⟩
  · rw [h1]; decide
  · rw [h1]; exact attach_ne_press s

/-- C10 witness: the theorem applied to the tag "primary" produced by
scanning `wFiling`. -/
theorem provenance_tags_primary_or_attachment_witness :
    ("primary" = "primary" ∨ ∃ s, "primary" = "attachment:" ++ s) ∧
    "primary" ≠ "press_release" :=
  provenance_tags_primary_or_attachment true wFiling "primary" (by decide)

end EdgarQuery
